import Mathlib

/-!
Verification of the DNO save-file binary parser (src/save-parser.js).

The parser operates on JavaScript `Uint8Array` buffers.  We embed a buffer as
`List UInt8`.  JavaScript strings produced by `TextDecoder` (and consumed by
`TextEncoder`) are modelled by their byte sequences (`List UInt8`); all class
and field names involved are ASCII, where UTF-8 encoding is the identity on
bytes.  JavaScript numbers appearing as offsets and lengths are embedded as
`Int` (they are always integral in this code); 32-bit wrapping of JavaScript
bitwise operators is made explicit with `% 2 ^ 32` and `toInt32`.

Out-of-bounds indexing on a `Uint8Array` yields `undefined` in JavaScript and
never throws; `DataView` reads (`getInt32` etc.) throw a `RangeError` when out
of bounds.  We therefore model plain indexing with `byteAt?` (an `Option`)
and `DataView` reads with `Option`-returning readers, turning `none` into an
`Except.error` exactly where the JavaScript exception would propagate.

Unbounded `while` loops in the source are embedded with an explicit bound
(`fuel`) chosen at each call site to exceed the maximal possible number of
iterations of the JavaScript loop, so the embedded function and the source
agree on every input; the recursion is structural, so all definitions
evaluate by `decide`/`rfl`.
-/

set_option maxRecDepth 20000

namespace DnoStats

/-- Equality of `Except` results is decidable componentwise; used to evaluate
the embedded decoders on closed inputs. -/
instance {ε α : Type} [DecidableEq ε] [DecidableEq α] : DecidableEq (Except ε α) :=
  fun x y =>
    match x, y with
    | .ok a, .ok b => if h : a = b then isTrue (by rw [h]) else isFalse (by simp [h])
    | .ok _, .error _ => isFalse (by simp)
    | .error _, .ok _ => isFalse (by simp)
    | .error a, .error b => if h : a = b then isTrue (by rw [h]) else isFalse (by simp [h])

/-- Bytes of an ASCII string, the identity embedding of `TextEncoder.encode`
for the ASCII names used throughout the parser. -/
def strB (s : String) : List UInt8 := s.data.map (fun c => UInt8.ofNat c.toNat)

/-- `data[i]` on a `Uint8Array`: `some` byte value when in bounds, `none`
(JavaScript `undefined`) otherwise. -/
def byteAt? (data : List UInt8) (i : Int) : Option Nat :=
  if i < 0 then none else (data[i.toNat]?).map (fun b => b.toNat)

/-- Interpret a bit pattern of width `w` as a two's-complement signed value. -/
def toSigned (w : Nat) (v : Nat) : Int :=
  if v < 2 ^ (w - 1) then (v : Int) else (v : Int) - 2 ^ w

/-- JavaScript `ToInt32` applied to a natural bit pattern. -/
def toInt32 (pattern : Nat) : Int := toSigned 32 (pattern % 2 ^ 32)

/-- Little-endian value of a byte list. -/
def leNat (l : List UInt8) : Nat := l.foldr (fun b acc => b.toNat + 256 * acc) 0

/-- An `n`-byte little-endian `DataView` read at `offset`: `none` models the
`RangeError` thrown when the read is out of bounds. -/
def readLE? (data : List UInt8) (offset : Int) (n : Nat) : Option Nat :=
  if 0 ≤ offset ∧ offset.toNat + n ≤ data.length then
    some (leNat ((data.drop offset.toNat).take n))
  else none

/-- `DataView.getUint32(offset, true)`. -/
def getUint32? (data : List UInt8) (offset : Int) : Option Nat :=
  readLE? data offset 4

/-- `DataView.getInt32(offset, true)`. -/
def getInt32? (data : List UInt8) (offset : Int) : Option Int :=
  (readLE? data offset 4).map (toSigned 32)

/-- Clamp of a `Uint8Array.subarray` index: negative indices count from the
end of the array, and the result is clamped into `[0, len]`. -/
def clampSub (len : Nat) (i : Int) : Nat :=
  if i < 0 then ((len : Int) + i).toNat else min i.toNat len

/-- `data.subarray(b, e)` as a byte list. -/
def subarrayB (data : List UInt8) (b e : Int) : List UInt8 :=
  let b' := clampSub data.length b
  let e' := clampSub data.length e
  (data.drop b').take (e' - b')

/-- The loop body of `parse7BitInt`, acting on the byte suffix starting at the
cursor.  Returns the accumulated 32-bit pattern and the number of bytes the
cursor advanced.  An exhausted suffix is the out-of-bounds read: `undefined`
contributes `0` bits and its clear high bit stops the loop. -/
def parse7BitGo : List UInt8 → Nat → Nat → Nat × Nat
  | [], result, _shift => (result, 1)
  | b :: rest, result, shift =>
    let result2 := result ||| (((b.toNat &&& 127) <<< (shift % 32)) % 2 ^ 32)
    if b.toNat &&& 128 ≠ 0 then
      let r := parse7BitGo rest result2 (shift + 7)
      (r.1, r.2 + 1)
    else (result2, 1)

/-- `parse7BitInt(data, offset)` from src/save-parser.js: JavaScript's 7-bit
variable-length integer decode.  The returned value is the signed 32-bit
result of the `|=` accumulation; the returned offset is one past the last
byte read.  The function never throws. -/
def parse7BitInt (data : List UInt8) (offset : Int) : Int × Int :=
  if offset < 0 then (0, offset + 1)
  else
    let r := parse7BitGo (data.drop offset.toNat) 0 0
    (toInt32 r.1, offset + r.2)

/-- Whether the `parse7BitInt` loop starting at `offset` reads past the end of
the buffer before encountering a byte with a clear high bit. -/
def parse7BitOverranGo : List UInt8 → Bool
  | [] => true
  | b :: rest => if b.toNat &&& 128 ≠ 0 then parse7BitOverranGo rest else false

/-- `parse7BitInt` at a (valid) offset runs past the buffer end before a
terminating byte. -/
def parse7BitIntOverran (data : List UInt8) (offset : Nat) : Bool :=
  parse7BitOverranGo (data.drop offset)

/-- `parseBfString(data, offset)`: a 7-bit length prefix followed by that many
bytes.  `subarray` clamps to the buffer, and `TextDecoder` (modelled as the
identity on bytes) never throws, so a short buffer yields a shortened value,
never an error. -/
def parseBfString (data : List UInt8) (offset : Int) : List UInt8 × Int :=
  let r := parse7BitInt data offset
  (subarrayB data r.2 (r.2 + r.1), r.2 + r.1)

/-! ### BinaryFormatter constants (src/save-parser.js lines 9-23) -/

def TAG_PRIMITIVE : Nat := 0
def TAG_STRING : Nat := 1
def TAG_SYSTEM_CLASS : Nat := 3
def TAG_CLASS : Nat := 4
def TAG_PRIMITIVE_ARRAY : Nat := 7

def PRIM_BOOLEAN : Nat := 1
def PRIM_BYTE : Nat := 2
def PRIM_INT16 : Nat := 7
def PRIM_INT32 : Nat := 8
def PRIM_INT64 : Nat := 9
def PRIM_SINGLE : Nat := 11
def PRIM_DOUBLE : Nat := 6

/-! ### readPrimitive -/

/-- A JavaScript value produced by `readPrimitive` or stored in a decoded
record object.  Float reads carry their raw little-endian bit patterns; no
IEEE-754 arithmetic is performed on them anywhere in the parser's logic that
the specification's claims concern. -/
inductive JsVal where
  | undefined
  | bool (b : Bool)
  | num (n : Int)
  | f32 (bits : Nat)
  | f64 (bits : Nat)
  deriving DecidableEq, Repr

/-- Error message of an out-of-bounds `DataView` read. -/
def dvErr : String := "Offset is outside the bounds of the DataView"

/-- Display of the `primType` argument inside the `Unknown primitive type`
error message (JavaScript template-string conversion). -/
def primTypeText : Option Nat → String
  | none => "undefined"
  | some n => toString n

/-- `readPrimitive(data, offset, primType)`: fixed-width little-endian decode
dispatched on the primitive type code.  `primType` is `none` when the
JavaScript value would be `undefined` (an out-of-bounds `primTypes` entry).
Boolean and byte reads index the array directly and never throw: an
out-of-bounds boolean read is `undefined !== 0`, i.e. `true`, and an
out-of-bounds byte read is `undefined`.  The 64-bit integer read is surfaced
through `Number(...)` in JavaScript; we keep the exact integer (`Number` is
exact up to `2 ^ 53`). -/
def readPrimitive (data : List UInt8) (offset : Int) (primType : Option Nat) :
    Except String (JsVal × Int) :=
  if primType = some PRIM_BOOLEAN then
    match byteAt? data offset with
    | some b => .ok (.bool (decide (b ≠ 0)), offset + 1)
    | none => .ok (.bool true, offset + 1)
  else if primType = some PRIM_BYTE then
    match byteAt? data offset with
    | some b => .ok (.num b, offset + 1)
    | none => .ok (.undefined, offset + 1)
  else if primType = some PRIM_INT16 then
    match readLE? data offset 2 with
    | some v => .ok (.num (toSigned 16 v), offset + 2)
    | none => .error dvErr
  else if primType = some PRIM_INT32 then
    match readLE? data offset 4 with
    | some v => .ok (.num (toSigned 32 v), offset + 4)
    | none => .error dvErr
  else if primType = some PRIM_INT64 then
    match readLE? data offset 8 with
    | some v => .ok (.num (toSigned 64 v), offset + 8)
    | none => .error dvErr
  else if primType = some PRIM_SINGLE then
    match readLE? data offset 4 with
    | some v => .ok (.f32 v, offset + 4)
    | none => .error dvErr
  else if primType = some PRIM_DOUBLE then
    match readLE? data offset 8 with
    | some v => .ok (.f64 v, offset + 8)
    | none => .error dvErr
  else .error ("Unknown primitive type: " ++ primTypeText primType)

/-! ### JavaScript object model

Decoded records are JavaScript objects written by `obj[name] = value`.
We model them as association lists in key insertion order: an assignment to
an existing key updates the value in place, otherwise it appends. -/

abbrev JsObj := List (List UInt8 × JsVal)

def objSet (o : JsObj) (k : List UInt8) (v : JsVal) : JsObj :=
  if o.any (fun p => p.1 == k) then
    o.map (fun p => if p.1 == k then (k, v) else p)
  else o ++ [(k, v)]

/-- Property lookup `o[k]`: `undefined` for an absent key. -/
def objGet (o : JsObj) (k : List UInt8) : JsVal :=
  match o.find? (fun p => p.1 == k) with
  | some p => p.2
  | none => .undefined

/-- JavaScript truthiness of a value as used by `waves.filter(w => w.field)`.
For floats this is decidable from the bit pattern: `±0` and `NaN` are falsy,
everything else is truthy. -/
def jsTruthy : JsVal → Bool
  | .undefined => false
  | .bool b => b
  | .num n => decide (n ≠ 0)
  | .f32 bits => decide (0 < bits % 2 ^ 31 ∧ bits % 2 ^ 31 ≤ 0x7F800000)
  | .f64 bits => decide (0 < bits % 2 ^ 63 ∧ bits % 2 ^ 63 ≤ 0x7FF0000000000000)

/-! ### findBytes (src/save-parser.js lines 61-69) -/

/-- Does `needle` occur in `data` starting exactly at index `i`?  Used only
under the bound `i + needle.length ≤ data.length`, where it coincides with
the byte-by-byte comparison of the source. -/
def matchesAt (data needle : List UInt8) (i : Nat) : Bool :=
  (data.drop i).take needle.length == needle

/-- The scan loop of `findBytes`.  The `fuel` argument bounds the number of
iterations; `findBytes` supplies `data.length + 1 - start`, which is exactly
the number of loop entries of the source's `for` loop, so exhausted fuel
coincides with the loop condition `i <= data.length - needle.length`
failing. -/
def findBytesGo (data needle : List UInt8) : Nat → Nat → Option Nat
  | _, 0 => none
  | i, fuel + 1 =>
    if data.length < i + needle.length then none
    else if matchesAt data needle i then some i
    else findBytesGo data needle (i + 1) fuel

/-- `findBytes(data, needle, start)`: first occurrence of `needle` at or
after `start`, `none` for the source's `-1`. -/
def findBytes (data needle : List UInt8) (start : Nat) : Option Nat :=
  findBytesGo data needle start (data.length + 1 - start)

/-! ### findClassDefinition (src/save-parser.js lines 73-158) -/

/-- The record returned by `findClassDefinition`.  `typeTags` and `primTypes`
entries are `none` when the corresponding JavaScript array slot holds
`undefined` (an out-of-bounds read, or — for `primTypes` — never, since
unassigned slots are filled with `0`). -/
structure ClassDef where
  className : List UInt8
  memberCount : Nat
  memberNames : List (List UInt8)
  typeTags : List (Option Nat)
  primTypes : List (Option Nat)
  dataOffset : Int
  objectId : Nat
  deriving DecidableEq, Repr, Inhabited

/-- The member-name loop: `mc` successive `parseBfString` reads. -/
def readMembers (data : List UInt8) : Int → Nat → List (List UInt8) × Int
  | offset, 0 => ([], offset)
  | offset, n + 1 =>
    let r := parseBfString data offset
    let rest := readMembers data r.2 n
    (r.1 :: rest.1, rest.2)

/-- The type-tag loop: `mc` single-byte reads (`undefined` out of bounds). -/
def readTags (data : List UInt8) : Int → Nat → List (Option Nat) × Int
  | offset, 0 => ([], offset)
  | offset, n + 1 =>
    let t := byteAt? data offset
    let rest := readTags data (offset + 1) n
    (t :: rest.1, rest.2)

/-- The additional-type-info loop: primitive and primitive-array tags consume
one subtype byte, class tags a string plus a 4-byte assembly reference id,
system-class tags a string, everything else nothing.  Slots not assigned keep
the `fill(0)` default. -/
def readExtra (data : List UInt8) : Int → List (Option Nat) → List (Option Nat) × Int
  | offset, [] => ([], offset)
  | offset, tag :: rest =>
    if tag = some TAG_PRIMITIVE then
      let pt := byteAt? data offset
      let r := readExtra data (offset + 1) rest
      (pt :: r.1, r.2)
    else if tag = some TAG_CLASS then
      let s := parseBfString data offset
      let r := readExtra data (s.2 + 4) rest
      (some 0 :: r.1, r.2)
    else if tag = some TAG_SYSTEM_CLASS then
      let s := parseBfString data offset
      let r := readExtra data s.2 rest
      (some 0 :: r.1, r.2)
    else if tag = some TAG_PRIMITIVE_ARRAY then
      let pt := byteAt? data offset
      let r := readExtra data (offset + 1) rest
      (pt :: r.1, r.2)
    else
      let r := readExtra data offset rest
      (some 0 :: r.1, r.2)

/-- One step of the object-id back-walk at cursor `testPos`: try to read a
length-prefixed string there; if it fits in the buffer and ends with the
class name, read the 4-byte id just before the cursor.  A `RangeError` from
that read (cursor < 4) is swallowed by the inner `catch` and the walk
continues.  The `fuel` counts the remaining loop iterations
(`testPos - limit + 1` at entry, with `limit = max(pos - 50, 0)`). -/
def backWalkGo (data cnb : List UInt8) : Nat → Nat → Nat
  | _, 0 => 0
  | testPos, fuel + 1 =>
    let r := parse7BitInt data (testPos : Int)
    if r.2 + r.1 ≤ (data.length : Int) then
      if cnb.isSuffixOf (subarrayB data r.2 (r.2 + r.1)) then
        match getUint32? data ((testPos : Int) - 4) with
        | some id => id
        | none => backWalkGo data cnb (testPos - 1) fuel
      else backWalkGo data cnb (testPos - 1) fuel
    else backWalkGo data cnb (testPos - 1) fuel

/-- The object-id back-walk from candidate position `p`: scan backward at
most 50 bytes for a length-prefixed string ending in the class name; `0` when
no anchor is found (including `p = 0`, where the JavaScript loop starts at
`testPos = -1` and never runs). -/
def backWalkObjectId (data cnb : List UInt8) (p : Nat) : Nat :=
  backWalkGo data cnb (p - 1) (min p 50)

/-- The body of `findClassDefinition`'s `try` block at candidate position
`p`: read the 4-byte member count (a `RangeError` is caught and rejects the
candidate), check it against the expected field count, validate the first
field name, then parse member names, type tags and additional type info, skip
the trailing 4-byte library id, and resolve the object id.  `none` means the
candidate was rejected and scanning resumes at `p + 1`.

When `expected` is empty, `expectedFields[0]` is `undefined` in JavaScript
and the string comparison always fails, so the candidate is rejected. -/
def attemptCandidate (data cnb : List UInt8) (expected : List (List UInt8)) (p : Nat) :
    Option ClassDef :=
  let after := p + cnb.length
  match getUint32? data (after : Int) with
  | none => none
  | some mc =>
    if mc ≠ expected.length then none
    else
      match expected with
      | [] => none
      | e0 :: _ =>
        if (parseBfString data ((after : Int) + 4)).1 ≠ e0 then none
        else
          let m := readMembers data ((after : Int) + 4) mc
          let t := readTags data m.2 mc
          let e := readExtra data t.2 t.1
          some { className := cnb, memberCount := mc, memberNames := m.1,
                 typeTags := t.1, primTypes := e.1, dataOffset := e.2 + 4,
                 objectId := backWalkObjectId data cnb p }

/-- The candidate loop of `findClassDefinition`.  Each iteration either
returns, exhausts the buffer (`findBytes` misses), or advances the scan
position past the rejected candidate.  `fuel` bounds the iterations;
`findClassDefinition` supplies `data.length + 2`, which exceeds the maximal
number of candidates (positions are strictly increasing and at most
`data.length + 1`), so the `0` case is unreachable there. -/
def findClassDefGo (data cnb : List UInt8) (expected : List (List UInt8)) :
    Nat → Nat → Option ClassDef
  | _, 0 => none
  | pos, fuel + 1 =>
    match findBytes data cnb pos with
    | none => none
    | some p =>
      match attemptCandidate data cnb expected p with
      | some cd => some cd
      | none => findClassDefGo data cnb expected (p + 1) fuel

/-- `findClassDefinition(data, className, expectedFields, start)`. -/
def findClassDefinition (data cnb : List UInt8) (expected : List (List UInt8))
    (start : Nat) : Option ClassDef :=
  findClassDefGo data cnb expected start (data.length + 2)

/-! ### findClassIdInstance / findAllClassIdInstances (lines 160-187) -/

/-- The scan of `data.indexOf(0x01, base)` over the suffix starting at
`base`. -/
def idxOf01Go : List UInt8 → Nat → Option Nat
  | [], _ => none
  | b :: rest, base => if b == 1 then some base else idxOf01Go rest (base + 1)

/-- `data.indexOf(0x01, k)` for a non-negative (already clamped) start
index. -/
def idxOf01 (data : List UInt8) (k : Nat) : Option Nat :=
  idxOf01Go (data.drop k) k

/-- `TypedArray.prototype.indexOf` treats a negative `fromIndex` as an offset
from the end of the array, clamped to `0`. -/
def jsFromIndex (len : Nat) (i : Int) : Nat :=
  if i < 0 then ((len : Int) + i).toNat else i.toNat

/-- Unsigned 32-bit little-endian read used under an explicit bounds check
(`pos + 9 <= data.length`), where the `DataView` read cannot throw. -/
def getUint32At (data : List UInt8) (i : Nat) : Nat :=
  (readLE? data (i : Int) 4).getD 0

/-- The loop of `findClassIdInstance`: while the scan position is below
`data.length - 9`, find the next `0x01` marker; if the whole 9-byte record
fits, compare the 4-byte id at marker+5; on a match return marker+9,
otherwise resume just past the marker.  `fuel` bounds the iterations;
`findClassIdInstance` supplies `data.length + 2`, which the loop can never
exhaust (after the first iteration positions are strictly increasing and
bounded by `data.length`). -/
def findCidGo (data : List UInt8) (metadataId : Nat) : Int → Nat → Option Nat
  | _, 0 => none
  | pos, fuel + 1 =>
    if pos < (data.length : Int) - 9 then
      match idxOf01 data (jsFromIndex data.length pos) with
      | none => none
      | some p =>
        if p + 9 ≤ data.length then
          if getUint32At data (p + 5) = metadataId then some (p + 9)
          else findCidGo data metadataId ((p : Int) + 1) fuel
        else findCidGo data metadataId ((p : Int) + 1) fuel
    else none

/-- `findClassIdInstance(data, metadataId, start)`. -/
def findClassIdInstance (data : List UInt8) (metadataId : Nat) (start : Int) :
    Option Nat :=
  findCidGo data metadataId start (data.length + 2)

/-- The collection loop of `findAllClassIdInstances`: repeat the single
lookup, each continuation starting at the previous result.  `fuel` bounds the
iterations; `findAllClassIdInstances` supplies `data.length + 2`, which the
loop can never exhaust (results strictly increase and are at most
`data.length`). -/
def findAllGo (data : List UInt8) (metadataId : Nat) : Int → Nat → List Nat
  | _, 0 => []
  | pos, fuel + 1 =>
    match findClassIdInstance data metadataId pos with
    | none => []
    | some off => off :: findAllGo data metadataId (off : Int) fuel

/-- `findAllClassIdInstances(data, metadataId, start)`. -/
def findAllClassIdInstances (data : List UInt8) (metadataId : Nat) (start : Int) :
    List Nat :=
  findAllGo data metadataId start (data.length + 2)

/-! ### Record decoders (src/save-parser.js lines 191-382) -/

/-- `DIFFICULTY_NAMES` (line 7), as the JavaScript object lookup: `some` for
keys 0-4, `none` (`undefined`) otherwise. -/
def DIFFICULTY_NAMES (i : Int) : Option String :=
  if i = 0 then some "Easy"
  else if i = 1 then some "Normal"
  else if i = 2 then some "Hard"
  else if i = 3 then some "Brutal"
  else if i = 4 then some "Impossible"
  else none

structure Header where
  saveVersion : Int
  missionId : Int
  missionIdName : Option String
  difficultyId : Int
  difficultyName : String
  deriving DecidableEq, Repr

def hdrFieldNames : List (List UInt8) :=
  [strB "saveVersion", strB "missionId", strB "difficultyId", strB "profileData",
   strB "specialHeaderValue", strB "customMapName", strB "completedCampaignLinks"]

/-- `extractHeader(datData)`: locate the header record under either of its
two type names, then read three 4-byte integers; an out-of-bounds `DataView`
read propagates to the caller as an error.  The difficulty label falls back
to `Unknown(id)` outside the 5-entry table (`||` on the always-truthy table
strings). -/
def extractHeader (datData : List UInt8) : Except String (Option Header) :=
  let cdef :=
    match findClassDefinition datData (strB "ProfileSaveHeader") hdrFieldNames 0 with
    | some c => some c
    | none => findClassDefinition datData (strB "UI.ProfileSaveHeader") hdrFieldNames 0
  match cdef with
  | none => .ok none
  | some c =>
    match getInt32? datData c.dataOffset with
    | none => .error dvErr
    | some saveVersion =>
      match getInt32? datData (c.dataOffset + 4) with
      | none => .error dvErr
      | some missionId =>
        match getInt32? datData (c.dataOffset + 8) with
        | none => .error dvErr
        | some difficultyId =>
          .ok (some
            { saveVersion, missionId, missionIdName := none, difficultyId,
              difficultyName :=
                (DIFFICULTY_NAMES difficultyId).getD
                  ("Unknown(" ++ toString difficultyId ++ ")") })

/-- `extractKilledEnemies(data)`: single 4-byte integer at the data offset of
the `KilledEnemiesCounterSingleton` record. -/
def extractKilledEnemies (data : List UInt8) : Except String (Option Int) :=
  match findClassDefinition data (strB "KilledEnemiesCounterSingleton") [strB "value"] 0 with
  | none => .ok none
  | some cdef =>
    match getInt32? data cdef.dataOffset with
    | none => .error dvErr
    | some v => .ok (some v)

def stFieldNames : List (List UInt8) :=
  [strB "nightIntensity", strB "elapsedTime", strB "elapsedTimeUnscaled",
   strB "previousFrameElapsedTime", strB "timeSpeed", strB "lastTimeSpeed",
   strB "dirty"]

/-- The session-time result.  The source derives rounded seconds and
formatted durations from the two 32-bit floats; we carry the raw float bit
patterns (the rounding and formatting of these values is IEEE-754 float
arithmetic; `formatDuration` itself is modelled separately over exact
rationals). -/
structure SessionTime where
  gameSecondsBits : Nat
  realSecondsBits : Nat
  deriving DecidableEq, Repr

/-- `extractSessionTime(data)`: skip the leading `nightIntensity` float, then
read `elapsedTime` and `elapsedTimeUnscaled` (4-byte floats, may throw). -/
def extractSessionTime (data : List UInt8) : Except String (Option SessionTime) :=
  match findClassDefinition data (strB "CurrentSessionTimeSingleton") stFieldNames 0 with
  | none => .ok none
  | some cdef =>
    match readLE? data (cdef.dataOffset + 4) 4 with
    | none => .error dvErr
    | some elapsedBits =>
      match readLE? data (cdef.dataOffset + 8) 4 with
      | none => .error dvErr
      | some unscaledBits => .ok (some ⟨elapsedBits, unscaledBits⟩)

structure ResourceSnapshots where
  currentDay : List (List UInt8 × Int)
  lastDay : Option (List (List UInt8 × Int))
  deriving DecidableEq, Repr

/-- The field loop of the two resource decoders: one 4-byte signed integer
per declared field, any out-of-bounds read throwing. -/
def readInt32Fields (data : List UInt8) :
    Int → List (List UInt8) → Except String (List (List UInt8 × Int) × Int)
  | offset, [] => .ok ([], offset)
  | offset, n :: ns =>
    match getInt32? data offset with
    | none => .error dvErr
    | some v =>
      match readInt32Fields data (offset + 4) ns with
      | .error m => .error m
      | .ok (l, off) => .ok ((n, v) :: l, off)

def resFieldNames : List (List UInt8) :=
  [strB "foodByFarms", strB "foodByFishers", strB "foodByBerrypickers", strB "wood",
   strB "treesCutted", strB "treesPlanted", strB "stone", strB "iron",
   strB "woodConsuming", strB "ironConsuming"]

/-- `extractResources(data)`: the current-day snapshot at the data offset,
then — when the object id resolved — an optional last-day snapshot at the
first back-reference found after the current-day fields. -/
def extractResources (data : List UInt8) : Except String (Option ResourceSnapshots) :=
  match findClassDefinition data (strB "ResourcesStatisticContainer") resFieldNames 0 with
  | none => .ok none
  | some cdef =>
    match readInt32Fields data cdef.dataOffset resFieldNames with
    | .error m => .error m
    | .ok (currentDay, off) =>
      if cdef.objectId ≠ 0 then
        match findClassIdInstance data cdef.objectId off with
        | some cid =>
          match readInt32Fields data (cid : Int) resFieldNames with
          | .error m => .error m
          | .ok (lastDay, _) => .ok (some ⟨currentDay, some lastDay⟩)
        | none => .ok (some ⟨currentDay, none⟩)
      else .ok (some ⟨currentDay, none⟩)

def undeadFieldNames : List (List UInt8) :=
  [strB "zombiesByBurial", strB "zombiesByCorpses", strB "deathMetal",
   strB "spirit", strB "bones"]

/-- `extractUndeadResources(data)`: identical shape to `extractResources`
over the undead resource container. -/
def extractUndeadResources (data : List UInt8) :
    Except String (Option ResourceSnapshots) :=
  match findClassDefinition data (strB "UndeadResourcesStatisticContainer") undeadFieldNames 0 with
  | none => .ok none
  | some cdef =>
    match readInt32Fields data cdef.dataOffset undeadFieldNames with
    | .error m => .error m
    | .ok (currentDay, off) =>
      if cdef.objectId ≠ 0 then
        match findClassIdInstance data cdef.objectId off with
        | some cid =>
          match readInt32Fields data (cid : Int) undeadFieldNames with
          | .error m => .error m
          | .ok (lastDay, _) => .ok (some ⟨currentDay, some lastDay⟩)
        | none => .ok (some ⟨currentDay, none⟩)
      else .ok (some ⟨currentDay, none⟩)

/-- The shared field-decoding loop of `extractAchievements` (lines 327-334)
and `readWaveFields` (lines 370-377): walk the declared names in order,
stopping at the first field whose type tag is not `TAG_PRIMITIVE` (including
an `undefined` tag from an exhausted tag array); decode each primitive field
and assign it on the result object.  A `readPrimitive` failure propagates. -/
def decodePrimFields (data : List UInt8) :
    Int → List (List UInt8) → List (Option Nat) → List (Option Nat) → JsObj →
    Except String JsObj
  | _, [], _, _, acc => .ok acc
  | offset, name :: names, tags, prims, acc =>
    if tags.head?.getD none = some TAG_PRIMITIVE then
      match readPrimitive data offset (prims.head?.getD none) with
      | .error m => .error m
      | .ok (v, off2) =>
        decodePrimFields data off2 names tags.tail prims.tail (objSet acc name v)
    else .ok acc

/-- The keys of a decoded object, in insertion order. -/
def keysOf (o : JsObj) : List (List UInt8) := o.map Prod.fst

/-- The length of the longest prefix of a tag list consisting solely of
`TAG_PRIMITIVE` tags. -/
def primCount (tags : List (Option Nat)) : Nat :=
  (tags.takeWhile (fun t => t == some TAG_PRIMITIVE)).length

def achClassName : List UInt8 := strB "AchievementsSaveData"

def achFieldNames : List (List UInt8) :=
  [strB "gatheredGold", strB "lastGold", strB "siegeMachineWasTrained",
   strB "powerUndeadUnitsWasTrained", strB "portsDestroyed",
   strB "marketPartsDestroyed", strB "trainedUnitTypes"]

/-- `extractAchievements(data)`: decode the expected fields in order,
stopping at the first non-primitive tag (`trainedUnitTypes` in a well-formed
save); `readPrimitive` failures propagate to the orchestrator. -/
def extractAchievements (data : List UInt8) : Except String (Option JsObj) :=
  match findClassDefinition data achClassName achFieldNames 0 with
  | none => .ok none
  | some cdef =>
    match decodePrimFields data cdef.dataOffset achFieldNames cdef.typeTags cdef.primTypes [] with
    | .error m => .error m
    | .ok r => .ok (some r)

def waveClassName : List UInt8 := strB "WaveHolderSaveData"

def waveFieldNames : List (List UInt8) :=
  [strB "referenceId", strB "waveId", strB "mapped", strB "fullySpawned",
   strB "waveDestroyed", strB "major"]

/-- `readWaveFields(data, offset, cdef)`: the stop-at-first-non-primitive
loop over the definition's own member names, with the surrounding
`try`/`catch` turning any decode failure into `null`. -/
def readWaveFields (data : List UInt8) (offset : Int) (cdef : ClassDef) : Option JsObj :=
  match decodePrimFields data offset cdef.memberNames cdef.typeTags cdef.primTypes [] with
  | .ok w => some w
  | .error _ => none

structure WaveSummary where
  total : Nat
  destroyed : Nat
  majorWaves : Nat
  details : List JsObj
  deriving DecidableEq, Repr

/-- The list of decoded wave instances: the instance at the definition's own
data offset, followed by one instance per back-reference to the definition's
object id (when it resolved), instances failing to decode being dropped. -/
def wavesOf (data : List UInt8) (cdef : ClassDef) : List JsObj :=
  let first :=
    match readWaveFields data cdef.dataOffset cdef with
    | some w => [w]
    | none => []
  if cdef.objectId ≠ 0 then
    first ++ (findAllClassIdInstances data cdef.objectId cdef.dataOffset).filterMap
      (fun o => readWaveFields data (o : Int) cdef)
  else first

/-- `extractWaves(data)`: decode every wave instance; report `null` rather
than an empty summary when no instance decodes. -/
def extractWaves (data : List UInt8) : Option WaveSummary :=
  match findClassDefinition data waveClassName waveFieldNames 0 with
  | none => none
  | some cdef =>
    let waves := wavesOf data cdef
    if waves.isEmpty then none
    else some
      { total := waves.length,
        destroyed := (waves.filter (fun w => jsTruthy (objGet w (strB "waveDestroyed")))).length,
        majorWaves := (waves.filter (fun w => jsTruthy (objGet w (strB "major")))).length,
        details := waves }

/-! ### formatDuration (lines 386-392)

`formatDuration` receives a JavaScript number; we model it over exact
rationals (`Math.floor` of a non-negative finite double and of the exact
rational it denotes agree). -/

/-- JavaScript's `%` (remainder with the sign of the dividend) for the
positive literal divisors used by `formatDuration`. -/
def jsRem (a : Int) (b : Nat) : Int :=
  if 0 ≤ a then ((a.toNat % b : Nat) : Int) else -(((-a).toNat % b : Nat) : Int)

/-- `String(n).padStart(2, '0')`. -/
def padStart2 (s : String) : String :=
  if s.length < 2 then String.mk (List.replicate (2 - s.length) '0') ++ s else s

/-- `formatDuration(seconds)`: floor-truncate to whole seconds and format as
`H:MM:SS`, hours unpadded, minutes and seconds padded to two digits. -/
def formatDuration (seconds : ℚ) : String :=
  let total : Int := ⌊seconds⌋
  let h : Int := Int.fdiv total 3600
  let m : Int := Int.fdiv (jsRem total 3600) 60
  let s : Int := jsRem total 60
  toString h ++ ":" ++ padStart2 (toString m) ++ ":" ++ padStart2 (toString s)

/-! ### parseSaveFiles (lines 396-445)

The orchestrator's per-save logic.  The surrounding `async` file reads, the
`Date` timestamps and the constant profile wrapper are I/O and environment
concerns outside the byte-level model; everything the decoders contribute to
the output is captured by `SaveEntry`. -/

structure Statistics where
  enemiesKilled : Option Int
  sessionTime : Option SessionTime
  resources : Option ResourceSnapshots
  undeadResources : Option ResourceSnapshots
  achievements : Option JsObj
  waves : Option WaveSummary
  deriving DecidableEq, Repr

structure SaveEntry where
  statistics : Statistics
  header : Option Header
  errors : Option (List String)
  deriving DecidableEq, Repr

/-- One `try { x = decoder() } catch (e) { errors.push(tag + ': ' + e.message) }`
block: the decoder's value (`none` when it threw, since the variable keeps
its `null` initialiser) together with the error entries it pushed. -/
def caught {α : Type} (tag : String) : Except String (Option α) → Option α × List String
  | .ok v => (v, [])
  | .error m => (none, [tag ++ ": " ++ m])

/-- The contents of the orchestrator's `errors` array after all seven
decoder blocks ran, in push order (the `waves` decoder cannot throw, so its
contribution is always empty). -/
def collectedErrors (saveData datData : List UInt8) : List String :=
  (caught "header" (extractHeader datData)).2 ++
  (caught "enemiesKilled" (extractKilledEnemies saveData)).2 ++
  (caught "sessionTime" (extractSessionTime saveData)).2 ++
  (caught "resources" (extractResources saveData)).2 ++
  (caught "undeadResources" (extractUndeadResources saveData)).2 ++
  (caught "achievements" (extractAchievements saveData)).2 ++
  (caught "waves" (Except.ok (extractWaves saveData))).2

/-- `parseSaveFiles(saveFile, datFile)` after both buffers are read: run all
seven decoders with per-decoder error isolation, assemble the statistics
record (a field is present exactly when its decoder produced a value), attach
the header when present and the error list when non-empty. -/
def parseSaveFiles (saveData datData : List UInt8) : SaveEntry :=
  let errors := collectedErrors saveData datData
  { statistics :=
      { enemiesKilled := (caught "enemiesKilled" (extractKilledEnemies saveData)).1,
        sessionTime := (caught "sessionTime" (extractSessionTime saveData)).1,
        resources := (caught "resources" (extractResources saveData)).1,
        undeadResources := (caught "undeadResources" (extractUndeadResources saveData)).1,
        achievements := (caught "achievements" (extractAchievements saveData)).1,
        waves := (caught "waves" (Except.ok (extractWaves saveData))).1 },
    header := (caught "header" (extractHeader datData)).1,
    errors := if errors = [] then none else some errors }

/-! ### Concrete test buffers

Hand-assembled byte buffers containing well-formed records of the known
types, used to evaluate the embedded parser on closed inputs. -/

/-- A length-prefixed string as serialized in the stream (names < 128 bytes,
so the length prefix is a single byte). -/
def bfStr (s : String) : List UInt8 := UInt8.ofNat s.length :: strB s

/-- A 4-byte little-endian unsigned integer. -/
def le32 (n : Nat) : List UInt8 :=
  [UInt8.ofNat (n % 256), UInt8.ofNat (n / 256 % 256),
   UInt8.ofNat (n / 65536 % 256), UInt8.ofNat (n / 16777216 % 256)]

/-- A buffer holding one well-formed `AchievementsSaveData` record: six
primitive fields (tags `0`, subtypes int32/int32/bool/bool/int32/int32)
followed by the collection-typed `trainedUnitTypes` (system-class tag `3`),
with field values 10, 20, true, false, 2, 3. -/
def achBuf : List UInt8 :=
  strB "AchievementsSaveData" ++ le32 7 ++
  bfStr "gatheredGold" ++ bfStr "lastGold" ++ bfStr "siegeMachineWasTrained" ++
  bfStr "powerUndeadUnitsWasTrained" ++ bfStr "portsDestroyed" ++
  bfStr "marketPartsDestroyed" ++ bfStr "trainedUnitTypes" ++
  [0, 0, 0, 0, 0, 0, 3] ++
  [8, 8, 1, 1, 8, 8] ++ bfStr "X" ++
  le32 0 ++
  le32 10 ++ le32 20 ++ [1] ++ [0] ++ le32 2 ++ le32 3

/-- The class definition located in `achBuf`. -/
def achCdef : ClassDef :=
  (findClassDefinition achBuf achClassName achFieldNames 0).getD default

/-- The object decoded from `achBuf`. -/
def achResult : JsObj :=
  match extractAchievements achBuf with
  | .ok (some r) => r
  | _ => []

/-- A buffer holding one well-formed `WaveHolderSaveData` record with all six
fields primitive (int32, int32, bool ×4) and values 2, 3, true, false, true,
true. -/
def waveBuf : List UInt8 :=
  strB "WaveHolderSaveData" ++ le32 6 ++
  bfStr "referenceId" ++ bfStr "waveId" ++ bfStr "mapped" ++
  bfStr "fullySpawned" ++ bfStr "waveDestroyed" ++ bfStr "major" ++
  [0, 0, 0, 0, 0, 0] ++
  [8, 8, 1, 1, 1, 1] ++
  le32 0 ++
  le32 2 ++ le32 3 ++ [1, 0, 1, 1]

/-- The wave summary decoded from `waveBuf`. -/
def waveSummary : WaveSummary :=
  (extractWaves waveBuf).getD ⟨0, 0, 0, []⟩

/-- A buffer holding one well-formed `ProfileSaveHeader` record whose three
leading integer fields are 1 (save version), 5 (mission id) and 7 (a
difficulty id outside the 5-entry table). -/
def hdrBuf : List UInt8 :=
  strB "ProfileSaveHeader" ++ le32 7 ++
  bfStr "saveVersion" ++ bfStr "missionId" ++ bfStr "difficultyId" ++
  bfStr "profileData" ++ bfStr "specialHeaderValue" ++ bfStr "customMapName" ++
  bfStr "completedCampaignLinks" ++
  [0, 0, 0, 0, 0, 0, 0] ++
  [8, 8, 8, 8, 8, 8, 8] ++
  le32 0 ++
  le32 1 ++ le32 5 ++ le32 7

/-- The header decoded from `hdrBuf`. -/
def hdrHeader : Header :=
  match extractHeader hdrBuf with
  | .ok (some h) => h
  | _ => ⟨0, 0, none, 0, ""⟩

/-- `hdrBuf` truncated 10 bytes before its end: the class definition is still
located (the schema area is intact) but the first `getInt32` at the data
offset runs past the end, so `extractHeader` throws. -/
def hdrErrBuf : List UInt8 := hdrBuf.take (hdrBuf.length - 10)

/-- A 13-byte buffer whose only `0x01` marker sits exactly at offset
`length - 9 = 4`, its 9-byte back-reference record ending exactly at the
buffer end, with id bytes `[1, 2, 3, 4]` (little-endian 67305985) at
marker+5. -/
def cxBuf : List UInt8 := [0, 0, 0, 0, 1, 9, 9, 9, 9, 1, 2, 3, 4]

/-! ## Behavioral checks on closed inputs -/

example : parse7BitInt [0x05, 0x41] 0 = (5, 1) := by decide
example : parse7BitInt [0x80, 0x02] 0 = (256, 2) := by decide
example : parse7BitInt [0x80] 0 = (0, 2) := by decide
example : parseBfString [0x02, 0x41, 0x42, 0x43] 0 = ([0x41, 0x42], 3) := by decide
example : parseBfString [0x05, 0x41] 0 = ([0x41], 6) := by decide
example : findBytes [9, 1, 2, 1, 2] [1, 2] 0 = some 1 := by decide
example : findBytes [9, 1, 2, 1, 2] [1, 2] 2 = some 3 := by decide
example : findBytes [9, 1, 2] [1, 3] 0 = none := by decide
example :
    findClassIdInstance [0, 1, 9, 9, 9, 9, 7, 0, 0, 0, 2, 2] 7 0 = some 10 := by
  decide
example :
    findAllClassIdInstances
      [0, 1, 9, 9, 9, 9, 7, 0, 0, 0, 1, 9, 9, 9, 9, 7, 0, 0, 0, 2] 7 0 =
      [10, 19] := by
  decide
example : achCdef.memberCount = 7 := by decide
example : achCdef.typeTags = [some 0, some 0, some 0, some 0, some 0, some 0, some 3] := by
  decide
example :
    extractAchievements achBuf =
      .ok (some
        [(strB "gatheredGold", .num 10), (strB "lastGold", .num 20),
         (strB "siegeMachineWasTrained", .bool true),
         (strB "powerUndeadUnitsWasTrained", .bool false),
         (strB "portsDestroyed", .num 2), (strB "marketPartsDestroyed", .num 3)]) := by
  decide
example : (extractWaves waveBuf).isSome = true := by decide
example : waveSummary.total = 1 ∧ waveSummary.destroyed = 1 ∧ waveSummary.majorWaves = 1 := by
  decide
example : hdrHeader = ⟨1, 5, none, 7, "Unknown(7)"⟩ := by decide
example : extractHeader hdrErrBuf = .error dvErr := by decide
example : findClassIdInstance cxBuf 67305985 0 = some 13 := by decide

/-! ## Supporting lemmas -/

/-- When the 7-bit decode loop overruns the suffix it reads every suffix byte
plus one out-of-bounds byte. -/
theorem parse7BitGo_overran (l : List UInt8) :
    ∀ result shift, parse7BitOverranGo l = true →
      (parse7BitGo l result shift).2 = l.length + 1 := by
  induction l with
  | nil => intro result shift _; rfl
  | cons b rest ih =>
    intro result shift hov
    simp only [parse7BitOverranGo] at hov
    simp only [parse7BitGo]
    by_cases hb : b.toNat &&& 128 ≠ 0
    · simp only [if_pos hb] at hov ⊢
      simp only [ih _ _ hov, List.length_cons]
    · simp only [if_neg hb] at hov
      exact absurd hov (by simp)

/-- The 7-bit decode loop advances the cursor by at least one byte. -/
theorem parse7BitGo_pos (l : List UInt8) :
    ∀ result shift, 1 ≤ (parse7BitGo l result shift).2 := by
  induction l with
  | nil => intro _ _; exact le_refl 1
  | cons b rest ih =>
    intro result shift
    simp only [parse7BitGo]
    by_cases hb : b.toNat &&& 128 ≠ 0
    · simp only [if_pos hb]; omega
    · simp [if_neg hb]

/-- `parse7BitInt` never moves the cursor below its starting offset. -/
theorem parse7BitInt_snd_lower (data : List UInt8) (offset : Int) :
    offset + 1 ≤ (parse7BitInt data offset).2 := by
  simp only [parse7BitInt]
  by_cases h : offset < 0
  · simp [h]
  · simp only [if_neg h]
    have := parse7BitGo_pos (data.drop offset.toNat) 0 0
    omega

/-! ## C1 — varint decode at a truncated buffer -/

/-- C1, counterexample.  On the one-byte buffer `[0x80]` the decode reaches
the end of the buffer before any terminating byte
(`parse7BitIntOverran = true`), yet `parse7BitInt` does not fail with a
`MalformedVarInt` error: it returns the value `0` with the cursor two past
the start.  (No error exists in its code path at all: out-of-bounds
`Uint8Array` reads produce `undefined`, which acts as a terminating zero
byte.) -/
theorem parse7BitInt_truncated_returns :
    parse7BitIntOverran [0x80] 0 = true ∧ parse7BitInt [0x80] 0 = (0, 2) := by
  decide

/-- C1, amended.  If the decode reaches the end of the buffer before reading
a terminating byte, `parse7BitInt` does not fail: the out-of-bounds read acts
as a terminating zero byte, and the function returns normally with the cursor
one past the first out-of-bounds index, `max (offset + 1) (length + 1)`. -/
theorem parse7BitInt_overrun_returns (data : List UInt8) (offset : Nat)
    (hov : parse7BitIntOverran data offset = true) :
    (parse7BitInt data (offset : Int)).2 =
      ((max (offset + 1) (data.length + 1) : Nat) : Int) := by
  have hnn : ¬((offset : Int) < 0) := by omega
  simp only [parse7BitInt, if_neg hnn]
  have htn : Int.toNat (offset : Int) = offset := Int.toNat_natCast offset
  rw [htn]
  have hcons := parse7BitGo_overran (data.drop offset) 0 0
  rw [hcons hov]
  simp only [List.length_drop]
  rw [Nat.max_def]
  split <;> push_cast <;> omega

/-- C1, witness: the amended theorem evaluated on the truncated buffer
`[0x80]`. -/
theorem parse7BitInt_overrun_returns_witness :
    (parse7BitInt [0x80] (0 : Nat)).2 = ((max 1 2 : Nat) : Int) := by
  have h := parse7BitInt_overrun_returns [0x80] 0 (by decide)
  simpa using h

/-! ## C2 — length-prefixed string at a truncated buffer -/

/-- C2, counterexample.  On the buffer `[0x05, 0x41]` the decoded length
prefix is `5` but only one byte remains after the prefix; `parseBfString`
does not fail with a `TruncatedString` error: it returns the shortened
one-byte string `[0x41]` together with the out-of-range cursor `6`
(`subarray` clamps to the buffer end and `TextDecoder` never throws). -/
theorem parseBfString_truncated_returns :
    parse7BitInt [0x05, 0x41] 0 = (5, 1) ∧
    parseBfString [0x05, 0x41] 0 = ([0x41], 6) := by
  decide

/-- C2, amended.  When the decoded length prefix exceeds the number of bytes
remaining after the prefix, `parseBfString` does not fail: it returns the
bytes actually remaining (the requested slice clamped to the buffer end) as
the — possibly shortened — string value, with the advertised next offset
`prefixEnd + length` (which lies beyond the buffer). -/
theorem parseBfString_truncated_clamps (data : List UInt8) (offset : Nat)
    (hover : (data.length : Int) - (parse7BitInt data (offset : Int)).2 <
      (parse7BitInt data (offset : Int)).1) :
    parseBfString data (offset : Int) =
      (data.drop (parse7BitInt data (offset : Int)).2.toNat,
       (parse7BitInt data (offset : Int)).2 + (parse7BitInt data (offset : Int)).1) := by
  have hlo := parse7BitInt_snd_lower data (offset : Int)
  set e := (parse7BitInt data (offset : Int)).2 with he
  set v := (parse7BitInt data (offset : Int)).1 with hv
  have hepos : 0 ≤ e := by omega
  simp only [parseBfString, ← he, ← hv]
  refine Prod.ext ?_ rfl
  show subarrayB data e (e + v) = data.drop e.toNat
  have hev : (data.length : Int) < e + v := by omega
  simp only [subarrayB, clampSub]
  have h1 : ¬(e < 0) := by omega
  have h2 : ¬(e + v < 0) := by omega
  simp only [if_neg h1, if_neg h2]
  have h3 : min (e + v).toNat data.length = data.length := by omega
  rw [h3]
  by_cases h4 : e.toNat ≤ data.length
  · have h5 : min e.toNat data.length = e.toNat := by omega
    rw [h5]
    exact List.take_of_length_le (by simp)
  · have h5 : min e.toNat data.length = data.length := by omega
    rw [h5]
    rw [List.drop_length, List.take_nil]
    exact (List.drop_eq_nil_of_le (by omega)).symm

/-- C2, witness: the amended theorem evaluated on `[0x05, 0x41]`, where the
length prefix `5` exceeds the single remaining byte. -/
theorem parseBfString_truncated_clamps_witness :
    parseBfString [0x05, 0x41] (0 : Nat) =
      (([0x05, 0x41] : List UInt8).drop 1, 6) := by
  have h := parseBfString_truncated_clamps [0x05, 0x41] 0 (by decide)
  simpa using h

/-! ## Back-reference scanner lemmas -/

/-- A hit of the marker scan lies at or after its start and holds the marker
byte. -/
theorem idxOf01Go_some (l : List UInt8) :
    ∀ base p, idxOf01Go l base = some p →
      base ≤ p ∧ p - base < l.length ∧ l[p - base]? = some 1 := by
  induction l with
  | nil => intro base p h; simp [idxOf01Go] at h
  | cons b rest ih =>
    intro base p h
    simp only [idxOf01Go] at h
    by_cases hb : b == 1
    · rw [if_pos hb] at h
      have hbp : base = p := by simpa using h
      subst hbp
      refine ⟨le_refl _, by simp, ?_⟩
      rw [Nat.sub_self]
      have hb1 : b = 1 := by simpa using hb
      simp [hb1]
    · rw [if_neg hb] at h
      obtain ⟨h1, h2, h3⟩ := ih (base + 1) p h
      refine ⟨by omega, by simp only [List.length_cons]; omega, ?_⟩
      have hd : p - base = (p - (base + 1)) + 1 := by omega
      rw [hd, List.getElem?_cons_succ]
      exact h3

/-- `data.indexOf(0x01, k)` returns an in-bounds marker position at or after
`k`. -/
theorem idxOf01_some (data : List UInt8) (k p : Nat) (h : idxOf01 data k = some p) :
    k ≤ p ∧ p < data.length ∧ data[p]? = some 1 := by
  obtain ⟨h1, h2, h3⟩ := idxOf01Go_some (data.drop k) k p h
  rw [List.length_drop] at h2
  refine ⟨h1, by omega, ?_⟩
  rw [List.getElem?_drop] at h3
  have hk : k + (p - k) = p := by omega
  rwa [hk] at h3

/-- The clamped `indexOf` start index is never below the scan position. -/
theorem jsFromIndex_ge (len : Nat) (pos : Int) : pos ≤ ((jsFromIndex len pos : Nat) : Int) := by
  simp only [jsFromIndex]
  split <;> omega

/-- Any offset `findClassIdInstance`'s loop returns lies strictly beyond the
scan position, is at least 9 and at most the buffer length, and points one
past a 9-byte record whose marker byte is `0x01` and whose id bytes match. -/
theorem findCidGo_some (data : List UInt8) (id : Nat) :
    ∀ (fuel : Nat) (pos : Int) (off : Nat), findCidGo data id pos fuel = some off →
      pos < (off : Int) ∧ 9 ≤ off ∧ off ≤ data.length ∧
      data[off - 9]? = some 1 ∧ getUint32At data (off - 4) = id := by
  intro fuel
  induction fuel with
  | zero => intro pos off h; simp [findCidGo] at h
  | succ fuel ih =>
    intro pos off h
    simp only [findCidGo] at h
    by_cases hg : pos < (data.length : Int) - 9
    · rw [if_pos hg] at h
      cases hidx : idxOf01 data (jsFromIndex data.length pos) with
      | none => rw [hidx] at h; simp at h
      | some p =>
        rw [hidx] at h
        dsimp only at h
        obtain ⟨hp1, hp2, hp3⟩ := idxOf01_some data _ p hidx
        have hjs := jsFromIndex_ge data.length pos
        by_cases hb : p + 9 ≤ data.length
        · rw [if_pos hb] at h
          by_cases hid : getUint32At data (p + 5) = id
          · rw [if_pos hid] at h
            have hoff : p + 9 = off := by simpa using h
            subst hoff
            refine ⟨by omega, by omega, hb, ?_, ?_⟩
            · have hx : p + 9 - 9 = p := by omega
              rw [hx]; exact hp3
            · have hx : p + 9 - 4 = p + 5 := by omega
              rw [hx]; exact hid
          · rw [if_neg hid] at h
            obtain ⟨g1, g2, g3, g4, g5⟩ := ih _ _ h
            exact ⟨by omega, g2, g3, g4, g5⟩
        · rw [if_neg hb] at h
          obtain ⟨g1, g2, g3, g4, g5⟩ := ih _ _ h
          exact ⟨by omega, g2, g3, g4, g5⟩
    · rw [if_neg hg] at h
      simp at h

/-- Every offset collected by `findAllClassIdInstances`'s loop lies strictly
beyond the loop's start position. -/
theorem findAllGo_gt (data : List UInt8) (id : Nat) :
    ∀ (fuel : Nat) (pos : Int) (x : Nat), x ∈ findAllGo data id pos fuel →
      pos < (x : Int) := by
  intro fuel
  induction fuel with
  | zero => intro pos x hx; simp [findAllGo] at hx
  | succ fuel ih =>
    intro pos x hx
    simp only [findAllGo] at hx
    cases hf : findClassIdInstance data id pos with
    | none => rw [hf] at hx; simp at hx
    | some off =>
      rw [hf] at hx
      rcases List.mem_cons.mp hx with hx | hx
      · subst hx
        exact (findCidGo_some data id (data.length + 2) pos x hf).1
      · have h1 := (findCidGo_some data id (data.length + 2) pos off hf).1
        have h2 := ih (off : Int) x hx
        omega

/-- The offsets collected by `findAllClassIdInstances`'s loop are strictly
increasing. -/
theorem findAllGo_pairwise (data : List UInt8) (id : Nat) :
    ∀ (fuel : Nat) (pos : Int),
      List.Pairwise (fun a b => a < b) (findAllGo data id pos fuel) := by
  intro fuel
  induction fuel with
  | zero => intro pos; simp [findAllGo]
  | succ fuel ih =>
    intro pos
    simp only [findAllGo]
    cases hf : findClassIdInstance data id pos with
    | none => simp
    | some off =>
      refine List.Pairwise.cons ?_ (ih (off : Int))
      intro x hx
      have hgt := findAllGo_gt data id fuel (off : Int) x hx
      omega

/-! ## C7 — ordering of `findAllClassIdInstances` -/

/-- C7.  For every buffer, object id and start offset, the sequence of
offsets returned by `findAllClassIdInstances` is in non-decreasing stream
order and contains no repeated offset (in fact each continuation starts at
the previous match, and every further result lies strictly beyond it). -/
theorem findAllClassIdInstances_ordered (data : List UInt8) (id : Nat) (start : Int) :
    List.Pairwise (fun a b => a ≤ b) (findAllClassIdInstances data id start) ∧
    (findAllClassIdInstances data id start).Nodup := by
  have hp := findAllGo_pairwise data id (data.length + 2) start
  exact ⟨hp.imp (fun h => Nat.le_of_lt h), hp.imp (fun h => Nat.ne_of_lt h)⟩

/-! ## C10 — the boundary marker of `findClassIdInstance` -/

/-- C10, counterexample.  In the 13-byte buffer `cxBuf` the only `0x01`
marker sits exactly at offset `length - 9 = 4`, its 9-byte record ending
exactly at the buffer end — and `findClassIdInstance` DOES return it (the
guard `pos < data.length - 9` constrains the scan position before `indexOf`,
not the found marker position), rather than returning `null` as claimed. -/
theorem findClassIdInstance_last_marker_returned :
    findClassIdInstance cxBuf 67305985 0 = some 13 ∧ cxBuf.length = 13 ∧
    cxBuf[4]? = some 1 := by
  decide

/-- C10, amended.  The loop guard `pos < data.length - 9` applies to the scan
position from which `indexOf` searches, not to the found marker: a marker
whose full 9-byte record fits in the buffer — including one at exactly
`data.length - 9`, whose record ends exactly at the buffer end — is returned
when it is the first `0x01` at or after a scan position satisfying the guard.
Every returned offset is marker+9 for an in-bounds matching record:
`9 ≤ off ≤ data.length`, the byte at `off - 9` is `0x01`, and the 4-byte id
at `off - 4` equals the requested object id. -/
theorem findClassIdInstance_result_shape (data : List UInt8) (id : Nat)
    (start : Int) (off : Nat) (h : findClassIdInstance data id start = some off) :
    start < (off : Int) ∧ 9 ≤ off ∧ off ≤ data.length ∧
    data[off - 9]? = some 1 ∧ getUint32At data (off - 4) = id :=
  findCidGo_some data id (data.length + 2) start off h

/-- C10, witness: the amended theorem evaluated on `cxBuf`, whose matching
marker sits exactly at `length - 9`. -/
theorem findClassIdInstance_result_shape_witness :
    (0 : Int) < ((13 : Nat) : Int) ∧ 9 ≤ 13 ∧ 13 ≤ cxBuf.length ∧
    cxBuf[13 - 9]? = some 1 ∧ getUint32At cxBuf (13 - 4) = 67305985 :=
  findClassIdInstance_result_shape cxBuf 67305985 0 13 (by decide)

/-! ## C3 — the member-count rejection check -/

/-- A candidate accepted by the `try` block carries exactly the expected
number of members: the 4-byte count read right after the name was compared
against `expectedFields.length` before anything else was parsed. -/
theorem attemptCandidate_memberCount (data cnb : List UInt8)
    (expected : List (List UInt8)) (p : Nat) (cd : ClassDef)
    (h : attemptCandidate data cnb expected p = some cd) :
    cd.memberCount = expected.length := by
  simp only [attemptCandidate] at h
  cases hmc : getUint32? data ((p + cnb.length : Nat) : Int) with
  | none => rw [hmc] at h; simp at h
  | some mc =>
    rw [hmc] at h
    dsimp only at h
    by_cases hne : mc ≠ expected.length
    · rw [if_pos hne] at h; simp at h
    · rw [if_neg hne] at h
      push_neg at hne
      cases expected with
      | nil => simp at h
      | cons e0 rest =>
        dsimp only at h
        by_cases hfn : (parseBfString data (((p + cnb.length : Nat) : Int) + 4)).1 ≠ e0
        · rw [if_pos hfn] at h; simp at h
        · rw [if_neg hfn] at h
          cases h
          exact hne

/-- Any definition returned by the candidate loop has the expected member
count. -/
theorem findClassDefGo_memberCount (data cnb : List UInt8)
    (expected : List (List UInt8)) :
    ∀ (fuel pos : Nat) (cd : ClassDef),
      findClassDefGo data cnb expected pos fuel = some cd →
      cd.memberCount = expected.length := by
  intro fuel
  induction fuel with
  | zero => intro pos cd h; simp [findClassDefGo] at h
  | succ fuel ih =>
    intro pos cd h
    simp only [findClassDefGo] at h
    cases hfb : findBytes data cnb pos with
    | none => rw [hfb] at h; simp at h
    | some p =>
      rw [hfb] at h
      dsimp only at h
      cases hac : attemptCandidate data cnb expected p with
      | none => rw [hac] at h; dsimp only at h; exact ih _ _ h
      | some cd2 =>
        rw [hac] at h
        dsimp only at h
        cases h
        exact attemptCandidate_memberCount data cnb expected p _ hac

/-- C3.  Whenever `findClassDefinition` returns a class definition, its
member count equals the length of the expected field list; and at any
candidate name match whose 4-byte little-endian field count differs from
that length, the candidate is rejected and scanning resumes at
`candidate + 1` — such a candidate is never accepted. -/
theorem findClassDefinition_count_check :
    (∀ (data cnb : List UInt8) (expected : List (List UInt8)) (start : Nat)
        (cd : ClassDef), findClassDefinition data cnb expected start = some cd →
        cd.memberCount = expected.length) ∧
    (∀ (data cnb : List UInt8) (expected : List (List UInt8)) (fuel pos p mc : Nat),
        findBytes data cnb pos = some p →
        getUint32? data ((p + cnb.length : Nat) : Int) = some mc →
        mc ≠ expected.length →
        findClassDefGo data cnb expected pos (fuel + 1) =
          findClassDefGo data cnb expected (p + 1) fuel) := by
  constructor
  · intro data cnb expected start cd h
    exact findClassDefGo_memberCount data cnb expected _ _ _ h
  · intro data cnb expected fuel pos p mc hfb hmc hne
    have hac : attemptCandidate data cnb expected p = none := by
      simp only [attemptCandidate]
      rw [hmc]
      dsimp only
      rw [if_pos hne]
    simp only [findClassDefGo]
    rw [hfb]
    dsimp only
    rw [hac]

/-- C3, witness: the invariant evaluated on the concrete achievement buffer
(count 7 accepted), and the rejection step evaluated on a buffer whose name
match is followed by the wrong count 9. -/
theorem findClassDefinition_count_check_witness :
    (findClassDefinition achBuf achClassName achFieldNames 0 = some achCdef ∧
     achCdef.memberCount = achFieldNames.length) ∧
    findClassDefGo (achClassName ++ le32 9) achClassName achFieldNames 0 6 =
      findClassDefGo (achClassName ++ le32 9) achClassName achFieldNames 1 5 := by
  constructor
  · exact ⟨by decide,
      findClassDefinition_count_check.1 achBuf achClassName achFieldNames 0 achCdef
        (by decide)⟩
  · exact findClassDefinition_count_check.2 (achClassName ++ le32 9) achClassName
      achFieldNames 5 0 0 9 (by decide) (by decide) (by decide)

/-! ## C5 — the stop-at-first-non-primitive rule -/

/-- Assignment of a fresh key appends the binding. -/
theorem objSet_append (o : JsObj) (k : List UInt8) (v : JsVal)
    (hk : k ∉ keysOf o) : objSet o k v = o ++ [(k, v)] := by
  have hany : o.any (fun p => p.1 == k) = false := by
    rw [List.any_eq_false]
    intro p hp
    simp only [beq_iff_eq]
    intro hpk
    exact hk (hpk ▸ List.mem_map_of_mem Prod.fst hp)
  simp [objSet, hany]

/-- The field-decoding loop assigns exactly the names of the longest
all-primitive prefix of the tag list (in declared order), provided the names
are distinct and fresh. -/
theorem decodePrimFields_keys (data : List UInt8) :
    ∀ (names : List (List UInt8)) (tags prims : List (Option Nat)) (offset : Int)
      (acc r : JsObj), names.Nodup → (∀ n ∈ names, n ∉ keysOf acc) →
      decodePrimFields data offset names tags prims acc = .ok r →
      keysOf r = keysOf acc ++ names.take (primCount tags) := by
  intro names
  induction names with
  | nil =>
    intro tags prims offset acc r _ _ h
    simp only [decodePrimFields] at h
    cases h
    simp
  | cons name names ih =>
    intro tags prims offset acc r hnd hdisj h
    simp only [decodePrimFields] at h
    by_cases htag : tags.head?.getD none = some TAG_PRIMITIVE
    · rw [if_pos htag] at h
      cases hrp : readPrimitive data offset (prims.head?.getD none) with
      | error m => rw [hrp] at h; simp at h
      | ok vo =>
        rw [hrp] at h
        dsimp only at h
        have hnotin : name ∉ keysOf acc := hdisj name (List.mem_cons_self name names)
        rw [objSet_append acc name vo.1 hnotin] at h
        have hnd2 : names.Nodup := (List.nodup_cons.mp hnd).2
        have hne : name ∉ names := (List.nodup_cons.mp hnd).1
        have hdisj2 : ∀ n ∈ names, n ∉ keysOf (acc ++ [(name, vo.1)]) := by
          intro n hn
          simp only [keysOf, List.map_append, List.mem_append, List.map_cons,
            List.map_nil, List.mem_singleton]
          rintro (hin | hn1)
          · exact hdisj n (List.mem_cons_of_mem name hn) hin
          · exact hne (hn1 ▸ hn)
        have hrec := ih tags.tail prims.tail vo.2 _ r hnd2 hdisj2 h
        rw [hrec]
        cases tags with
        | nil => simp [List.head?_nil] at htag
        | cons t ts =>
          simp only [List.head?_cons, Option.getD_some] at htag
          subst htag
          simp only [keysOf, List.map_append, List.map_cons, List.map_nil, List.tail_cons,
            primCount, List.takeWhile, beq_self_eq_true, List.length_cons, List.take_succ_cons]
          simp [List.append_assoc]
    · rw [if_neg htag] at h
      cases h
      have hzero : primCount tags = 0 := by
        cases tags with
        | nil => simp [primCount]
        | cons t ts =>
          simp only [List.head?_cons, Option.getD_some] at htag
          have hbeq : (t == some TAG_PRIMITIVE) = false := by simpa using htag
          simp [primCount, List.takeWhile, hbeq]
      simp [hzero]

/-- C5.  For every located `AchievementsSaveData` class definition, whenever
the achievements decoder produces a result object, that object holds exactly
the fields of the longest prefix of the schema whose wire tags are all
`TAG_PRIMITIVE`, in declared order: everything from the first non-primitive
tag onward is not decoded. -/
theorem extractAchievements_prim_cut (data : List UInt8) (cdef : ClassDef) (r : JsObj)
    (hfind : findClassDefinition data achClassName achFieldNames 0 = some cdef)
    (hr : extractAchievements data = .ok (some r)) :
    keysOf r = achFieldNames.take (primCount cdef.typeTags) := by
  simp only [extractAchievements] at hr
  rw [hfind] at hr
  dsimp only at hr
  cases hdec : decodePrimFields data cdef.dataOffset achFieldNames cdef.typeTags
      cdef.primTypes [] with
  | error m => rw [hdec] at hr; simp at hr
  | ok r2 =>
    rw [hdec] at hr
    dsimp only at hr
    simp only [Except.ok.injEq, Option.some.injEq] at hr
    subst hr
    have hkeys := decodePrimFields_keys data achFieldNames cdef.typeTags cdef.primTypes
      cdef.dataOffset [] r2 (by decide) (by intro n _ hn; simp [keysOf] at hn) hdec
    simpa [keysOf] using hkeys

/-- C5, witness: on the concrete achievement buffer the located definition
has six leading primitive tags followed by a system-class tag, and the
decoder produces exactly the first six fields. -/
theorem extractAchievements_prim_cut_witness :
    findClassDefinition achBuf achClassName achFieldNames 0 = some achCdef ∧
    extractAchievements achBuf = .ok (some achResult) ∧
    keysOf achResult = achFieldNames.take (primCount achCdef.typeTags) :=
  ⟨by decide, by decide,
   extractAchievements_prim_cut achBuf achCdef achResult (by decide) (by decide)⟩

/-! ## C6 — no empty wave summary -/

/-- C6.  When the `WaveHolderSaveData` schema is never found, or when zero
wave instances decode, the wave decoder returns `none`; and any summary it
does return counts at least one wave (`total` is the length of the decoded
instance list), so it never returns a summary with `total = 0`. -/
theorem extractWaves_no_empty_summary (data : List UInt8) :
    (findClassDefinition data waveClassName waveFieldNames 0 = none →
      extractWaves data = none) ∧
    (∀ cdef, findClassDefinition data waveClassName waveFieldNames 0 = some cdef →
      wavesOf data cdef = [] → extractWaves data = none) ∧
    (∀ s, extractWaves data = some s → 0 < s.total ∧ s.total = s.details.length) := by
  refine ⟨?_, ?_, ?_⟩
  · intro h
    simp [extractWaves, h]
  · intro cdef hfind hw
    simp [extractWaves, hfind, hw]
  · intro s hs
    simp only [extractWaves] at hs
    cases hfind : findClassDefinition data waveClassName waveFieldNames 0 with
    | none => rw [hfind] at hs; simp at hs
    | some cdef =>
      rw [hfind] at hs
      dsimp only at hs
      by_cases hemp : (wavesOf data cdef).isEmpty = true
      · rw [if_pos hemp] at hs; simp at hs
      · rw [if_neg hemp] at hs
        simp only [Option.some.injEq] at hs
        subst hs
        have hnil : wavesOf data cdef ≠ [] := by
          intro hnil
          exact hemp (by simp [hnil])
        exact ⟨List.length_pos.mpr hnil, rfl⟩

/-- C6, witness: the empty buffer has no wave schema and decodes to `none`,
and on the concrete wave buffer the returned summary has `total = 1 > 0`. -/
theorem extractWaves_no_empty_summary_witness :
    extractWaves ([] : List UInt8) = none ∧
    (0 < waveSummary.total ∧ waveSummary.total = waveSummary.details.length) :=
  ⟨(extractWaves_no_empty_summary []).1 (by decide),
   (extractWaves_no_empty_summary waveBuf).2.2 waveSummary (by decide)⟩

/-! ## C9 — the difficulty name table -/

/-- C9.  Every header the decoder returns carries the difficulty label of the
fixed five-entry table when the decoded difficulty id is 0-4, and the literal
`Unknown(<id>)` label for any id outside that range. -/
theorem extractHeader_difficulty_name (dat : List UInt8) (hd : Header)
    (h : extractHeader dat = .ok (some hd)) :
    (hd.difficultyId = 0 → hd.difficultyName = "Easy") ∧
    (hd.difficultyId = 1 → hd.difficultyName = "Normal") ∧
    (hd.difficultyId = 2 → hd.difficultyName = "Hard") ∧
    (hd.difficultyId = 3 → hd.difficultyName = "Brutal") ∧
    (hd.difficultyId = 4 → hd.difficultyName = "Impossible") ∧
    (hd.difficultyId ≠ 0 → hd.difficultyId ≠ 1 → hd.difficultyId ≠ 2 →
      hd.difficultyId ≠ 3 → hd.difficultyId ≠ 4 →
      hd.difficultyName = "Unknown(" ++ toString hd.difficultyId ++ ")") := by
  have hname : hd.difficultyName =
      (DIFFICULTY_NAMES hd.difficultyId).getD
        ("Unknown(" ++ toString hd.difficultyId ++ ")") := by
    simp only [extractHeader] at h
    cases hcd : (match findClassDefinition dat (strB "ProfileSaveHeader") hdrFieldNames 0 with
      | some c => some c
      | none => findClassDefinition dat (strB "UI.ProfileSaveHeader") hdrFieldNames 0) with
    | none => rw [hcd] at h; simp at h
    | some c =>
      rw [hcd] at h
      dsimp only at h
      cases h1 : getInt32? dat c.dataOffset with
      | none => rw [h1] at h; simp at h
      | some saveVersion =>
        rw [h1] at h
        dsimp only at h
        cases h2 : getInt32? dat (c.dataOffset + 4) with
        | none => rw [h2] at h; simp at h
        | some missionId =>
          rw [h2] at h
          dsimp only at h
          cases h3 : getInt32? dat (c.dataOffset + 8) with
          | none => rw [h3] at h; simp at h
          | some difficultyId =>
            rw [h3] at h
            dsimp only at h
            simp only [Except.ok.injEq, Option.some.injEq] at h
            subst h
            rfl
  refine ⟨?_, ?_, ?_, ?_, ?_, ?_⟩ <;> intro h0
  · simp [hname, DIFFICULTY_NAMES, h0]
  · simp [hname, DIFFICULTY_NAMES, h0]
  · simp [hname, DIFFICULTY_NAMES, h0]
  · simp [hname, DIFFICULTY_NAMES, h0]
  · simp [hname, DIFFICULTY_NAMES, h0]
  · intro h1 h2 h3 h4
    simp [hname, DIFFICULTY_NAMES, h0, h1, h2, h3, h4]

/-- C9, witness: the concrete header buffer decodes with difficulty id 7 and
label `Unknown(7)`. -/
theorem extractHeader_difficulty_name_witness :
    extractHeader hdrBuf = .ok (some hdrHeader) ∧
    hdrHeader.difficultyName = "Unknown(" ++ toString hdrHeader.difficultyId ++ ")" :=
  ⟨by decide,
   (extractHeader_difficulty_name hdrBuf hdrHeader (by decide)).2.2.2.2.2
     (by decide) (by decide) (by decide) (by decide) (by decide)⟩

/-! ## C8 — duration formatting -/

/-- C8.  For every non-negative duration, `formatDuration` depends only on
the floor of its argument (truncation to whole seconds), and formats it as
`H:MM:SS`: there are `h`, `m < 60`, `s < 60` decomposing the floored total,
with hours rendered unpadded and minutes and seconds zero-padded to exactly
two digits; in particular 125.4 seconds format as `0:02:05` and 3661.0
seconds as `1:01:01`. -/
theorem formatDuration_spec (q : ℚ) (hq : 0 ≤ q) :
    (formatDuration q = formatDuration ((⌊q⌋ : ℤ) : ℚ) ∧
     ∃ h m s : ℕ, m < 60 ∧ s < 60 ∧ ⌊q⌋.toNat = 3600 * h + 60 * m + s ∧
       formatDuration q =
         toString h ++ ":" ++ padStart2 (toString m) ++ ":" ++ padStart2 (toString s) ∧
       (padStart2 (toString m)).length = 2 ∧ (padStart2 (toString s)).length = 2) ∧
    formatDuration (125.4 : ℚ) = "0:02:05" ∧ formatDuration (3661.0 : ℚ) = "1:01:01" := by
  have hpad : ∀ x : ℕ, x < 60 → (padStart2 (toString x)).length = 2 := by decide
  have hfmtNat : ∀ N : ℕ, formatDuration ((N : ℤ) : ℚ) =
      toString (N / 3600) ++ ":" ++ padStart2 (toString (N % 3600 / 60)) ++ ":" ++
        padStart2 (toString (N % 60)) := by
    intro N
    have hfl : (⌊((N : ℤ) : ℚ)⌋ : ℤ) = (N : ℤ) := Int.floor_intCast (N : ℤ)
    have hrem1 : jsRem ((N : ℤ)) 3600 = ((N % 3600 : ℕ) : ℤ) := by
      simp [jsRem, Int.toNat_natCast]
    have hrem2 : jsRem ((N : ℤ)) 60 = ((N % 60 : ℕ) : ℤ) := by
      simp [jsRem, Int.toNat_natCast]
    have hdiv1 : Int.fdiv ((N : ℤ)) 3600 = ((N / 3600 : ℕ) : ℤ) := by
      rw [Int.fdiv_eq_ediv _ (by norm_num)]
      norm_num [Int.ofNat_ediv]
    have hdiv2 : Int.fdiv (((N % 3600 : ℕ) : ℤ)) 60 = ((N % 3600 / 60 : ℕ) : ℤ) := by
      rw [Int.fdiv_eq_ediv _ (by norm_num)]
      norm_num [Int.ofNat_ediv]
    have hstr : ∀ k : ℕ, toString ((k : ℕ) : ℤ) = toString k := fun _ => rfl
    simp only [formatDuration, hfl, hrem1, hrem2, hdiv1, hdiv2, hstr]
  have hNq : (⌊q⌋ : ℤ) = (⌊q⌋.toNat : ℤ) := (Int.toNat_of_nonneg (Int.floor_nonneg.mpr hq)).symm
  have hinv : formatDuration q = formatDuration ((⌊q⌋ : ℤ) : ℚ) := by
    simp only [formatDuration, Int.floor_intCast]
  refine ⟨⟨hinv, ?_⟩, ?_, ?_⟩
  · refine ⟨⌊q⌋.toNat / 3600, ⌊q⌋.toNat % 3600 / 60, ⌊q⌋.toNat % 60, ?_, ?_, ?_, ?_, ?_, ?_⟩
    · omega
    · omega
    · omega
    · rw [hinv, hNq, hfmtNat, Int.toNat_natCast]
    · exact hpad _ (by omega)
    · exact hpad _ (by omega)
  · have hf : (⌊(125.4 : ℚ)⌋ : ℤ) = 125 := by norm_num [Int.floor_eq_iff]
    have h1 : formatDuration (125.4 : ℚ) = formatDuration (((125 : ℕ) : ℤ) : ℚ) := by
      simp only [formatDuration, hf, Int.floor_intCast, Nat.cast_ofNat]
    rw [h1, hfmtNat 125]
    decide
  · have hf : (⌊(3661.0 : ℚ)⌋ : ℤ) = 3661 := by norm_num [Int.floor_eq_iff]
    have h1 : formatDuration (3661.0 : ℚ) = formatDuration (((3661 : ℕ) : ℤ) : ℚ) := by
      simp only [formatDuration, hf, Int.floor_intCast, Nat.cast_ofNat]
    rw [h1, hfmtNat 3661]
    decide

/-- C8, witness: the theorem evaluated at 125.4 seconds. -/
theorem formatDuration_spec_witness : formatDuration (125.4 : ℚ) = "0:02:05" :=
  (formatDuration_spec (125.4 : ℚ) (by norm_num)).2.1

/-! ## C4 — orchestrator error isolation -/

/-- A decoder block yields a value exactly when the decoder returned one. -/
theorem caught_fst_some {α : Type} (tag : String) (r : Except String (Option α)) (v : α) :
    (caught tag r).1 = some v ↔ r = .ok (some v) := by
  cases r <;> simp [caught]

/-- A decoder block pushes exactly its tagged message when the decoder
threw. -/
theorem caught_snd_error {α : Type} (tag : String) (r : Except String (Option α))
    (m : String) (h : r = .error m) : (caught tag r).2 = [tag ++ ": " ++ m] := by
  subst h; rfl

/-- C4.  For every pair of input buffers: every decoder that throws gets its
exception caught locally and recorded as a decoder-name-tagged error string
in the collected error list (independently of all other decoders, which
still contribute their own results); the assembled statistics record carries
a field exactly when the corresponding decoder produced a value — a decoder
that returned "not found" or threw leaves its field absent; and the errors
list is attached to the output exactly when it is non-empty. -/
theorem parseSaveFiles_isolation (saveData datData : List UInt8) :
    (∀ m, extractHeader datData = .error m →
      ("header: " ++ m) ∈ collectedErrors saveData datData) ∧
    (∀ m, extractKilledEnemies saveData = .error m →
      ("enemiesKilled: " ++ m) ∈ collectedErrors saveData datData) ∧
    (∀ m, extractSessionTime saveData = .error m →
      ("sessionTime: " ++ m) ∈ collectedErrors saveData datData) ∧
    (∀ m, extractResources saveData = .error m →
      ("resources: " ++ m) ∈ collectedErrors saveData datData) ∧
    (∀ m, extractUndeadResources saveData = .error m →
      ("undeadResources: " ++ m) ∈ collectedErrors saveData datData) ∧
    (∀ m, extractAchievements saveData = .error m →
      ("achievements: " ++ m) ∈ collectedErrors saveData datData) ∧
    (collectedErrors saveData datData ≠ [] →
      (parseSaveFiles saveData datData).errors = some (collectedErrors saveData datData)) ∧
    (∀ l, (parseSaveFiles saveData datData).errors = some l → l ≠ []) ∧
    ((parseSaveFiles saveData datData).errors = none ↔
      collectedErrors saveData datData = []) ∧
    (∀ v, (parseSaveFiles saveData datData).statistics.enemiesKilled = some v ↔
      extractKilledEnemies saveData = .ok (some v)) ∧
    (∀ v, (parseSaveFiles saveData datData).statistics.sessionTime = some v ↔
      extractSessionTime saveData = .ok (some v)) ∧
    (∀ v, (parseSaveFiles saveData datData).statistics.resources = some v ↔
      extractResources saveData = .ok (some v)) ∧
    (∀ v, (parseSaveFiles saveData datData).statistics.undeadResources = some v ↔
      extractUndeadResources saveData = .ok (some v)) ∧
    (∀ v, (parseSaveFiles saveData datData).statistics.achievements = some v ↔
      extractAchievements saveData = .ok (some v)) ∧
    ((parseSaveFiles saveData datData).statistics.waves = extractWaves saveData) ∧
    (∀ hd, (parseSaveFiles saveData datData).header = some hd ↔
      extractHeader datData = .ok (some hd)) := by
  refine ⟨?_, ?_, ?_, ?_, ?_, ?_, ?_, ?_, ?_, ?_, ?_, ?_, ?_, ?_, ?_, ?_⟩
  · intro m hm; simp [collectedErrors, caught, hm]
  · intro m hm; simp [collectedErrors, caught, hm]
  · intro m hm; simp [collectedErrors, caught, hm]
  · intro m hm; simp [collectedErrors, caught, hm]
  · intro m hm; simp [collectedErrors, caught, hm]
  · intro m hm; simp [collectedErrors, caught, hm]
  · intro hne
    simp only [parseSaveFiles]
    rw [if_neg hne]
  · intro l hl
    simp only [parseSaveFiles] at hl
    by_cases hc : collectedErrors saveData datData = []
    · rw [if_pos hc] at hl; cases hl
    · rw [if_neg hc] at hl
      simp only [Option.some.injEq] at hl
      exact hl ▸ hc
  · simp only [parseSaveFiles]
    by_cases hc : collectedErrors saveData datData = []
    · rw [if_pos hc]; simp [hc]
    · rw [if_neg hc]; simp [hc]
  · intro v; simp only [parseSaveFiles]; exact caught_fst_some _ _ v
  · intro v; simp only [parseSaveFiles]; exact caught_fst_some _ _ v
  · intro v; simp only [parseSaveFiles]; exact caught_fst_some _ _ v
  · intro v; simp only [parseSaveFiles]; exact caught_fst_some _ _ v
  · intro v; simp only [parseSaveFiles]; exact caught_fst_some _ _ v
  · simp only [parseSaveFiles]; rfl
  · intro hd; simp only [parseSaveFiles]; exact caught_fst_some _ _ hd

/-- C4, witness: with an empty primary buffer and the truncated header
buffer, the header decoder throws, its tagged message is recorded, and the
error list is attached to the output. -/
theorem parseSaveFiles_isolation_witness :
    ("header: " ++ dvErr) ∈ collectedErrors [] hdrErrBuf ∧
    (parseSaveFiles [] hdrErrBuf).errors = some (collectedErrors [] hdrErrBuf) :=
  ⟨(parseSaveFiles_isolation [] hdrErrBuf).1 dvErr (by decide),
   (parseSaveFiles_isolation [] hdrErrBuf).2.2.2.2.2.2.1 (by decide)⟩

end DnoStats
